import Mathlib

/-!
Verification of the SSE client in `packages/point-of-sale/hooks/sse-api.ts`.

The development shallowly embeds the decoder (`_extractFromSSE`), the
connection manager (`RemoteSSESubscribable`: `_connect`, `_onMessage`,
`_disconnect`, `subscribe`, `reconnect`), the subscriber registry and the
module-level singleton holder (`useStatefulSubscribableSSE` /
`destroyStatefulSubscribableSSE`).

JavaScript strings are modelled as `List Char`; the JS primitives
`String.prototype.indexOf` (with its clamping of a negative `fromIndex` to 0),
`String.prototype.slice` (with negative indices counting from the end) and
`String.prototype.trim` are modelled explicitly, because the decoder's
behaviour — including its divergence on a `data: ` marker that is not
followed by a newline — depends on them.  `JSON.parse` (a host builtin) is
modelled by a small recursive-descent parser `jsonParse` returning
`Option Json`; the claims about the decoder depend only on success/failure of
individual payloads, plus concrete successes on simple object literals.

The decoder's scanning loop is embedded with explicit fuel
(`extractLoop`): a run of the JS loop terminates with result `ls` iff the
fuelled function returns `some ls` for the canonical fuel
(`chunk.length + 1` bounds the iteration count of every terminating run,
since each completed iteration advances the scan position by at least 6),
and the JS loop diverges iff the fuelled function returns `none` for every
fuel.
-/

/-- Whitespace as trimmed by `String.prototype.trim` (the common cases). -/
def jsWhitespace (c : Char) : Bool :=
  c = ' ' || c = '\t' || c = '\n' || c = '\r'

/-- Model of `String.prototype.trim`: strip whitespace from both ends. -/
def jsTrim (s : List Char) : List Char :=
  ((s.dropWhile jsWhitespace).reverse.dropWhile jsWhitespace).reverse

/-- Does `pat` occur in `s` starting at position `i`? -/
def occursAt (s pat : List Char) (i : Nat) : Bool :=
  pat.isPrefixOf (s.drop i)

/-- First position `≥ start` at which `pat` occurs in `s`. -/
def findFrom (s pat : List Char) (start : Nat) : Option Nat :=
  (List.range (s.length + 1)).find? (fun i => decide (start ≤ i) && occursAt s pat i)

/-- ECMAScript clamping of an integer position into `[0, len]`
(`String.prototype.indexOf` clamps a negative `fromIndex` to 0). -/
def jsClamp (i : Int) (len : Nat) : Nat :=
  min i.toNat len

/-- Model of `s.indexOf(pat, fromIdx)`: position of the first occurrence of
`pat` at or after the clamped `fromIdx`, or `-1` if there is none. -/
def jsIndexOf (s pat : List Char) (fromIdx : Int) : Int :=
  match findFrom s pat (jsClamp fromIdx s.length) with
  | some i => (i : Int)
  | none => -1

/-- Normalisation of one `slice` endpoint: negative indices count from the
end of the string, and everything is clamped into `[0, len]`. -/
def jsSliceIdx (i : Int) (len : Nat) : Nat :=
  if i < 0 then ((len : Int) + i).toNat else min i.toNat len

/-- Model of `s.slice(a, b)` for JavaScript strings. -/
def jsSlice (s : List Char) (a b : Int) : List Char :=
  (s.take (jsSliceIdx b s.length)).drop (jsSliceIdx a s.length)

mutual
/-- JSON values, the results of the modelled `JSON.parse`.  Arrays and
objects use the mutual types `JsonList` / `JsonFields` rather than `List`. -/
inductive Json where
  | jnull
  | jbool (b : Bool)
  | jnum (n : Int)
  | jstr (s : String)
  | jarr (elems : JsonList)
  | jobj (fields : JsonFields)
deriving DecidableEq
/-- A sequence of JSON array elements. -/
inductive JsonList where
  | nil
  | cons (hd : Json) (tl : JsonList)
deriving DecidableEq
/-- A sequence of JSON object fields (key/value pairs). -/
inductive JsonFields where
  | nil
  | cons (key : String) (val : Json) (tl : JsonFields)
deriving DecidableEq
end

/-- Skip leading JSON whitespace. -/
def skipWS (s : List Char) : List Char := s.dropWhile jsWhitespace

/-- Parse the body of a JSON string literal (after the opening quote),
handling the simple escape sequences; returns the string and the rest of
the input after the closing quote. -/
def parseStringBody : Nat → List Char → List Char → Option (String × List Char)
  | 0, _, _ => none
  | fuel + 1, acc, s =>
    match s with
    | [] => none
    | '"' :: rest => some (String.mk acc.reverse, rest)
    | '\\' :: '"' :: rest => parseStringBody fuel ('"' :: acc) rest
    | '\\' :: '\\' :: rest => parseStringBody fuel ('\\' :: acc) rest
    | '\\' :: '/' :: rest => parseStringBody fuel ('/' :: acc) rest
    | '\\' :: 'n' :: rest => parseStringBody fuel ('\n' :: acc) rest
    | '\\' :: 't' :: rest => parseStringBody fuel ('\t' :: acc) rest
    | '\\' :: 'r' :: rest => parseStringBody fuel ('\r' :: acc) rest
    | '\\' :: _ => none
    | c :: rest => parseStringBody fuel (c :: acc) rest

/-- Numeric value of a digit run. -/
def digitsToNat (ds : List Char) : Nat :=
  ds.foldl (fun a c => a * 10 + (c.toNat - 48)) 0

/-- Parse a non-empty run of decimal digits into a `Nat` (the model covers
integer JSON numbers; fractional or exponent forms are not produced by the
streams under verification and make the parse fail). -/
def parseNatNum (s : List Char) : Option (Nat × List Char) :=
  let ds := s.takeWhile Char.isDigit
  let rest := s.drop ds.length
  if ds.isEmpty then none
  else
    match rest with
    | '.' :: _ => none
    | 'e' :: _ => none
    | 'E' :: _ => none
    | _ => some (digitsToNat ds, rest)

mutual
/-- Parse one JSON value from the front of the input. -/
def parseValue : Nat → List Char → Option (Json × List Char)
  | 0, _ => none
  | fuel + 1, s =>
    match skipWS s with
    | 'n' :: 'u' :: 'l' :: 'l' :: rest => some (Json.jnull, rest)
    | 't' :: 'r' :: 'u' :: 'e' :: rest => some (Json.jbool true, rest)
    | 'f' :: 'a' :: 'l' :: 's' :: 'e' :: rest => some (Json.jbool false, rest)
    | '"' :: rest =>
      (parseStringBody (rest.length + 1) [] rest).map (fun p => (Json.jstr p.1, p.2))
    | '[' :: rest =>
      (match skipWS rest with
       | ']' :: r2 => some (Json.jarr JsonList.nil, r2)
       | _ => (parseElems fuel rest).map (fun p => (Json.jarr p.1, p.2)))
    | '{' :: rest =>
      (match skipWS rest with
       | '}' :: r2 => some (Json.jobj JsonFields.nil, r2)
       | _ => (parseFields fuel rest).map (fun p => (Json.jobj p.1, p.2)))
    | '-' :: rest => (parseNatNum rest).map (fun p => (Json.jnum (-(p.1 : Int)), p.2))
    | other => (parseNatNum other).map (fun p => (Json.jnum (p.1 : Int), p.2))

/-- Parse the comma-separated elements of a JSON array, up to and including
the closing bracket. -/
def parseElems : Nat → List Char → Option (JsonList × List Char)
  | 0, _ => none
  | fuel + 1, s => do
    let (v, r) ← parseValue fuel s
    match skipWS r with
    | ',' :: r2 => do
      let (vs, r3) ← parseElems fuel r2
      pure (JsonList.cons v vs, r3)
    | ']' :: r2 => pure (JsonList.cons v JsonList.nil, r2)
    | _ => none

/-- Parse the comma-separated fields of a JSON object, up to and including
the closing brace. -/
def parseFields : Nat → List Char → Option (JsonFields × List Char)
  | 0, _ => none
  | fuel + 1, s =>
    match skipWS s with
    | '"' :: rest => do
      let (k, r) ← parseStringBody (rest.length + 1) [] rest
      match skipWS r with
      | ':' :: r2 => do
        let (v, r3) ← parseValue fuel r2
        match skipWS r3 with
        | ',' :: r4 => do
          let (fs, r5) ← parseFields fuel r4
          pure (JsonFields.cons k v fs, r5)
        | '}' :: r4 => pure (JsonFields.cons k v JsonFields.nil, r4)
        | _ => none
      | _ => none
    | _ => none
end

/-- Model of the host `JSON.parse`: parse one value, allow trailing
whitespace, and fail on anything else.  `none` models a thrown
`SyntaxError`. -/
def jsonParse (s : String) : Option Json :=
  match parseValue (s.length + 1) s.data with
  | some (v, rest) => if (skipWS rest).isEmpty then some v else none
  | none => none

/-- One-for-one embedding of the scanning loop of `_extractFromSSE`
(sse-api.ts lines 200-210), with explicit fuel; `startIndex` is an `Int`
because the JS variable is assigned `-1` when `indexOf` finds no newline.
Returns `none` when the fuel runs out before the loop exits. -/
def extractLoop : Nat → List Char → Int → List (List Char) → Option (List (List Char))
  | 0, _, _, _ => none
  | fuel + 1, s, startIndex, acc =>
    let dataIndex := jsIndexOf s ("data: ".data) startIndex
    if dataIndex = -1 then some acc
    else
      let afterMarker : Int := dataIndex + 6
      let endIndex := jsIndexOf s ['\n'] afterMarker
      let line := jsTrim (jsSlice s afterMarker endIndex)
      extractLoop fuel s endIndex (acc ++ [line])

/-- The data lines collected by `_extractFromSSE`'s scanning loop on a text
chunk; `none` means the loop never exits (the canonical fuel
`chunk.length + 1` is enough for every terminating run, because each
completed iteration moves `startIndex` forward by at least 6). -/
def extractDataLines (chunk : String) : Option (List String) :=
  (extractLoop (chunk.length + 1) chunk.data 0 []).map (fun ls => ls.map String.mk)

/-- The `SSEClient` record (sse-api.ts lines 9-15).  The `reconnect`
callback carried by the JS record is a method bound to the owning manager
and is modelled as the operation `reconnectRun` below rather than as a
field. -/
structure SSEClient where
  clientId : Option String := none
  connected : Bool := false
  lastMessage : Option Json := none
  error : Option String := none
deriving DecidableEq

/-- The module-level `defaultSSEClient` (sse-api.ts lines 17-20):
`connected: false` and no other field set. -/
def defaultSSEClient : SSEClient := {}

/-- State of one `RemoteSSESubscribable` instance.  Subscriber callbacks
are identified by `Nat` tokens held in insertion order (a JS `Set` iterates
in insertion order); `reader` records whether `this.reader` is set (it is
assigned exactly once, when a fetch succeeds, and never cleared);
`cancelled` records whether `reader.cancel()` has been called. -/
structure Manager where
  url : String
  client : SSEClient
  subscribers : List Nat
  reader : Bool
  cancelled : Bool
deriving DecidableEq

/-- The constructor `new RemoteSSESubscribable(url)` (lines 97-108): the
stored client starts as a copy of `defaultSSEClient`, the subscriber set is
empty and no reader is held. -/
def mkManager (url : String) : Manager :=
  { url := url, client := defaultSSEClient, subscribers := [], reader := false,
    cancelled := false }

/-- The getter `initial` (lines 110-112): it returns the module-level
`defaultSSEClient`, not the instance's stored client. -/
def Manager.initial (_ : Manager) : SSEClient := defaultSSEClient

/-- The getter `current` (lines 114-116): it also returns the module-level
`defaultSSEClient`. -/
def Manager.current (_ : Manager) : SSEClient := defaultSSEClient

/-- One call of `_notifySubscribers` (lines 193-197): the state is handed
to every registered subscriber in iteration order; the result is the list
of (subscriber, state) deliveries. -/
def notifySubscribers (subs : List Nat) (state : SSEClient) : List (Nat × SSEClient) :=
  subs.map (fun s => (s, state))

/-- The deliveries produced by a sequence of broadcasts to a fixed
subscriber list, in broadcast order. -/
def deliveries (subs : List Nat) (bs : List SSEClient) : List (Nat × SSEClient) :=
  bs.flatMap (notifySubscribers subs)

/-- The final broadcast of `_connect`'s `finally` block and of
`_disconnect`: a copy of the stored client with only `connected` forced to
`false`. -/
def finalBroadcast (client : SSEClient) : SSEClient :=
  { client with connected := false }

/-- The broadcast of `_connect`'s `catch` block: a copy of the stored
client with `error` set to the thrown message and `connected` forced to
`false`. -/
def errorBroadcast (client : SSEClient) (msg : String) : SSEClient :=
  { client with error := some msg, connected := false }

/-- Message of the error thrown when `response.body` is missing
(line 143). -/
def noBodyMsg : String := "ReadableStream not supported in this environment"

/-- The broadcast `_onMessage` performs for one decoded message
(lines 175-179): a copy of the stored client with `connected: true` and
the message as `lastMessage`. -/
def messageBroadcast (client : SSEClient) (obj : Json) : SSEClient :=
  { client with connected := true, lastMessage := some obj }

/-- The broadcast of `_extractFromSSE`'s `catch` block (lines 217-220): a
copy of the stored client with `error` set to a message embedding the
whole chunk. -/
def parseFailureBroadcast (client : SSEClient) (chunk : String) : SSEClient :=
  { client with error := some ("Failed to parse JSON data: " ++ chunk) }

/-- Map a fallible function over a list, failing as soon as one element
fails (the behaviour of `dataLines.map(line => JSON.parse(line))` inside
the `try` block: the first throw aborts the whole `map`). -/
def mapOpt (f : α → Option β) : List α → Option (List β)
  | [] => some []
  | a :: t =>
    match f a with
    | none => none
    | some y =>
      match mapOpt f t with
      | none => none
      | some ys => some (y :: ys)

/-- Embedding of `_extractFromSSE` (lines 199-224): the scanning loop
produces the data lines; `dataLines.map(JSON.parse)` throws on the first
unparsable line, in which case the `catch` block broadcasts the stored
client with `error` set and the whole chunk yields no messages.  The
result is `(returned messages, broadcasts emitted during extraction)`;
`none` models the scanning loop never exiting. -/
def extractFromSSE (client : SSEClient) (chunk : String) :
    Option (List Json × List SSEClient) :=
  match extractDataLines chunk with
  | none => none
  | some dataLines =>
    match mapOpt jsonParse dataLines with
    | some objs => some (objs, [])
    | none => some ([], [parseFailureBroadcast client chunk])

/-- Embedding of `_onMessage` (lines 172-181): run the decoder, then
broadcast one state per decoded message, in order, each a copy of the
stored client with `connected: true` and that message as `lastMessage`.
The result is the full broadcast sequence the chunk causes. -/
def onMessage (client : SSEClient) (chunk : String) : Option (List SSEClient) :=
  match extractFromSSE client chunk with
  | none => none
  | some (objs, notes) =>
    some (notes ++ objs.map (messageBroadcast client))

/-- The broadcasts produced by the read loop of `_connect` (lines 149-156)
over the successive decoded text chunks of the stream. -/
def readLoop (client : SSEClient) : List String → Option (List SSEClient)
  | [] => some []
  | c :: rest => do
    let bs ← onMessage client c
    let bs2 ← readLoop client rest
    pure (bs ++ bs2)

/-- Outcome of the `fetch`/read phase of `_connect`, as observed by the
manager: the fetch throws, the response has no body, or the reader yields
a sequence of decoded text chunks that ends gracefully (`done`, which is
also what a cancelled reader reports) or with a thrown read error. -/
inductive FetchResult where
  | failure (msg : String)
  | noBody
  | stream (chunks : List String)
  | streamError (chunks : List String) (msg : String)

/-- Result of one `_connect` call: the URL handed to `fetch` (if any), the
manager afterwards, and the broadcast sequence (`none` when the read loop
never exits because a chunk's extraction diverges). -/
structure ConnectResult where
  requested : Option String
  manager : Manager
  broadcasts : Option (List SSEClient)
deriving DecidableEq

/-- Embedding of `_connect` (lines 135-170).  The guard returns before the
`try`, so nothing at all happens for an empty or one-character URL.
Otherwise `fetch` is issued; on a throw or a missing body the `catch`
broadcast fires; on a stream the reader is stored, the read loop runs, and
in every case the `finally` block broadcasts the stored client with
`connected: false`. -/
def connectRun (m : Manager) (fr : FetchResult) : ConnectResult :=
  if m.url = "" ∨ m.url.length ≤ 1 then
    { requested := none, manager := m, broadcasts := some [] }
  else
    match fr with
    | .failure msg =>
      { requested := some m.url, manager := m,
        broadcasts := some [errorBroadcast m.client msg, finalBroadcast m.client] }
    | .noBody =>
      { requested := some m.url, manager := m,
        broadcasts := some [errorBroadcast m.client noBodyMsg, finalBroadcast m.client] }
    | .stream chunks =>
      { requested := some m.url, manager := { m with reader := true },
        broadcasts := (readLoop m.client chunks).map
          (fun bs => bs ++ [finalBroadcast m.client]) }
    | .streamError chunks msg =>
      { requested := some m.url, manager := { m with reader := true },
        broadcasts := (readLoop m.client chunks).map
          (fun bs => bs ++ [errorBroadcast m.client msg, finalBroadcast m.client]) }

/-- Embedding of `_disconnect` (lines 183-191): only when a reader is held
is it cancelled and a `connected: false` state broadcast; otherwise
nothing happens.  The held reader is not cleared. -/
def disconnectRun (m : Manager) : Manager × List SSEClient :=
  if m.reader then ({ m with cancelled := true }, [finalBroadcast m.client])
  else (m, [])

/-- Result of the `reconnect` callback installed by the constructor
(lines 101-104): the broadcasts of the `_disconnect` call, then the full
`_connect` result. -/
structure ReconnectResult where
  disconnectBroadcasts : List SSEClient
  connect : ConnectResult

/-- Embedding of the `reconnect` callback: `_disconnect()` then
`_connect()`, unconditionally. -/
def reconnectRun (m : Manager) (fr : FetchResult) : ReconnectResult :=
  { disconnectBroadcasts := (disconnectRun m).2,
    connect := connectRun (disconnectRun m).1 fr }

/-- `Set.add`: append the subscriber unless it is already registered. -/
def addSub (subs : List Nat) (s : Nat) : List Nat :=
  if s ∈ subs then subs else subs ++ [s]

/-- Embedding of `subscribe` (lines 118-133): register the callback, call
`_connect` only when no reader is held, and return the new manager, the
connect activity (if any) and the `this.client` snapshot that `subscribe`
returns alongside the unsubscribe handle. -/
def subscribeRun (m : Manager) (s : Nat) (fr : FetchResult) :
    Manager × Option ConnectResult × SSEClient :=
  let m1 := { m with subscribers := addSub m.subscribers s }
  if m1.reader then (m1, none, m1.client)
  else
    let cr := connectRun m1 fr
    (cr.manager, some cr, cr.manager.client)

/-- Embedding of the unsubscribe closure returned by `subscribe`
(lines 125-130): remove the callback; when the set becomes empty, call
`_disconnect`.  Returns the new manager and the broadcasts emitted. -/
def unsubscribeRun (m : Manager) (s : Nat) : Manager × List SSEClient :=
  let m1 := { m with subscribers := m.subscribers.filter (fun t => t != s) }
  if m1.subscribers.isEmpty then disconnectRun m1 else (m1, [])

/-- The public operations on one manager instance, for stating invariants
over arbitrary call sequences. -/
inductive Op where
  | sub (s : Nat) (fr : FetchResult)
  | unsub (s : Nat)
  | conn (fr : FetchResult)
  | disc
  | reconn (fr : FetchResult)

/-- Apply one operation to the manager (keeping only the manager part of
its result). -/
def applyOp (m : Manager) : Op → Manager
  | .sub s fr => (subscribeRun m s fr).1
  | .unsub s => (unsubscribeRun m s).1
  | .conn fr => (connectRun m fr).manager
  | .disc => (disconnectRun m).1
  | .reconn fr => (reconnectRun m fr).connect.manager

/-- Apply a sequence of operations. -/
def applyOps (m : Manager) (ops : List Op) : Manager :=
  ops.foldl applyOp m

/-- The module-level singleton holder: the mutable variable
`statefulSubscribable` (line 26), with a counter so that distinct
construction events yield distinguishable instances (modelling JS object
identity).  `inst` carries the identity token and the URL the instance was
constructed with. -/
structure Holder where
  next : Nat
  inst : Option (Nat × String)

/-- The holder at module load: no instance yet. -/
def emptyHolder : Holder := { next := 0, inst := none }

/-- Embedding of `useStatefulSubscribableSSE` (lines 70-76): construct the
shared instance, bound to `url`, only when none exists and `url` is truthy
(non-empty); otherwise return whatever is held, ignoring `url`. -/
def useStatefulSubscribableSSE (h : Holder) (url : String) :
    Holder × Option (Nat × String) :=
  if h.inst = none ∧ url ≠ "" then
    ({ next := h.next + 1, inst := some (h.next, url) }, some (h.next, url))
  else (h, h.inst)

/-- Embedding of `destroyStatefulSubscribableSSE` (lines 31-34): destroy
the held instance and reset the holder. -/
def destroyStatefulSubscribableSSE (h : Holder) : Holder :=
  { h with inst := none }

/-! ## Helper lemmas -/

lemma mapOpt_eq_none {α β : Type} (f : α → Option β) {l : List α} {x : α}
    (hx : x ∈ l) (hfx : f x = none) : mapOpt f l = none := by
  induction l with
  | nil => cases hx
  | cons a t ih =>
    rcases List.mem_cons.mp hx with rfl | hmem
    · simp only [mapOpt]
      rw [hfx]
    · cases hfa : f a with
      | none => simp only [mapOpt]; rw [hfa]
      | some y => simp only [mapOpt]; rw [hfa, ih hmem]

lemma extractLoop_neg_one (fuel : Nat) (acc : List (List Char)) :
    extractLoop fuel ("data: x".data) (-1) acc = none := by
  induction fuel generalizing acc with
  | zero => rfl
  | succ n ih =>
    have hstep : extractLoop (n + 1) ("data: x".data) (-1) acc
        = extractLoop n ("data: x".data) (-1) (acc ++ [[]]) := rfl
    rw [hstep]
    exact ih (acc ++ [[]])

/-! ## Claims -/

/-- C7: the claim says the marker-scanning extraction always terminates,
yielding, for a `data: ` marker with no subsequent newline, the payload
from the marker to the end of the chunk.  The code disagrees: on the chunk
"data: x" the scan sets `startIndex` to `-1`, and since `indexOf` clamps a
negative start to 0 the same marker is found again forever — no fuel makes
the loop exit, so `_extractFromSSE` never returns on such a chunk. -/
theorem extract_diverges_on_missing_newline :
    (∀ fuel acc, extractLoop fuel ("data: x".data) (-1) acc = none) ∧
    (∀ fuel, extractLoop fuel ("data: x".data) 0 [] = none) ∧
    extractDataLines "data: x" = none := by
  refine ⟨extractLoop_neg_one, ?_, by decide⟩
  intro fuel
  cases fuel with
  | zero => rfl
  | succ n =>
    have hstep : extractLoop (n + 1) ("data: x".data) 0 []
        = extractLoop n ("data: x".data) (-1) [[]] := rfl
    rw [hstep]
    exact extractLoop_neg_one n [[]]

/-- C2: whenever at least one extracted data line of a chunk fails to
parse, `_extractFromSSE` returns no messages at all and broadcasts a state
whose `error` field is set (so `_onMessage` emits exactly that error
broadcast and no message broadcast). -/
theorem decoder_all_or_nothing (client : SSEClient) (chunk : String)
    (dataLines : List String) (bad : String)
    (hext : extractDataLines chunk = some dataLines)
    (hmem : bad ∈ dataLines) (hfail : jsonParse bad = none) :
    extractFromSSE client chunk = some ([], [parseFailureBroadcast client chunk]) ∧
    onMessage client chunk = some [parseFailureBroadcast client chunk] ∧
    (parseFailureBroadcast client chunk).error.isSome = true := by
  have hmap := mapOpt_eq_none jsonParse hmem hfail
  have h1 : extractFromSSE client chunk = some ([], [parseFailureBroadcast client chunk]) := by
    unfold extractFromSSE
    rw [hext]
    dsimp only
    rw [hmap]
  refine ⟨h1, ?_, rfl⟩
  unfold onMessage
  rw [h1]
  rfl

/-- Witness for C2 at the chunk "data: 1\ndata: bad\n": the first payload
parses, the second does not, and the decoder emits no message and one
error broadcast. -/
theorem decoder_all_or_nothing_witness :
    extractFromSSE defaultSSEClient "data: 1\ndata: bad\n" =
      some ([], [parseFailureBroadcast defaultSSEClient "data: 1\ndata: bad\n"]) ∧
    onMessage defaultSSEClient "data: 1\ndata: bad\n" =
      some [parseFailureBroadcast defaultSSEClient "data: 1\ndata: bad\n"] ∧
    (parseFailureBroadcast defaultSSEClient "data: 1\ndata: bad\n").error.isSome = true :=
  decoder_all_or_nothing defaultSSEClient "data: 1\ndata: bad\n" ["1", "bad"] "bad"
    (by decide) (by decide) (by decide)

/-- C5: on the chunk holding the two frames whose payloads are the object
literals with fields a=1 and b=2, the decoder yields exactly two messages,
each triggering its own distinct broadcast, and the deliveries to a
subscriber preserve frame order. -/
theorem two_frames_two_broadcasts_in_order :
    onMessage defaultSSEClient "data: \x7b\"a\":1\x7d\ndata: \x7b\"b\":2\x7d\n" =
      some [messageBroadcast defaultSSEClient
              (Json.jobj (JsonFields.cons "a" (Json.jnum 1) JsonFields.nil)),
            messageBroadcast defaultSSEClient
              (Json.jobj (JsonFields.cons "b" (Json.jnum 2) JsonFields.nil))] ∧
    messageBroadcast defaultSSEClient
        (Json.jobj (JsonFields.cons "a" (Json.jnum 1) JsonFields.nil)) ≠
      messageBroadcast defaultSSEClient
        (Json.jobj (JsonFields.cons "b" (Json.jnum 2) JsonFields.nil)) ∧
    deliveries [0]
        [messageBroadcast defaultSSEClient
           (Json.jobj (JsonFields.cons "a" (Json.jnum 1) JsonFields.nil)),
         messageBroadcast defaultSSEClient
           (Json.jobj (JsonFields.cons "b" (Json.jnum 2) JsonFields.nil))] =
      [(0, messageBroadcast defaultSSEClient
             (Json.jobj (JsonFields.cons "a" (Json.jnum 1) JsonFields.nil))),
       (0, messageBroadcast defaultSSEClient
             (Json.jobj (JsonFields.cons "b" (Json.jnum 2) JsonFields.nil)))] :=
  ⟨by decide, by decide, by decide⟩

lemma url_guard_false {u : String} (h : 1 < u.length) : ¬(u = "" ∨ u.length ≤ 1) := by
  rintro (rfl | hle)
  · exact absurd h (by decide)
  · omega

lemma deliveries_nil_subs (bs : List SSEClient) : deliveries [] bs = [] := by
  induction bs with
  | nil => rfl
  | cons b t ih => simp [deliveries, notifySubscribers]

/-- C1 (counterexample): on a graceful end of stream after one decoded
message, the final broadcast does not preserve the `lastMessage` that the
earlier broadcast carried — the stored client is never written back, so the
final broadcast reverts `lastMessage` (and `error`) to `none` instead of
changing only `connected`. -/
theorem final_broadcast_drops_previous_values :
    (connectRun { mkManager "ab" with subscribers := [0] } (.stream ["data: 1\n"])).broadcasts =
      some [messageBroadcast defaultSSEClient (Json.jnum 1), finalBroadcast defaultSSEClient] ∧
    (messageBroadcast defaultSSEClient (Json.jnum 1)).lastMessage = some (Json.jnum 1) ∧
    (finalBroadcast defaultSSEClient).lastMessage = none ∧
    (finalBroadcast defaultSSEClient).lastMessage ≠
      (messageBroadcast defaultSSEClient (Json.jnum 1)).lastMessage :=
  ⟨by decide, by decide, by decide, by decide⟩

/-- C1 (amended): on loop exit for any reason the run's last broadcast is
delivered to every subscriber and equals the stored client record with only
`connected` changed to `false` — but since earlier broadcasts never write
back to the stored record, the final broadcast carries the stored record's
`lastMessage`/`error` values, not the values previously set by earlier
broadcasts. -/
theorem final_broadcast_is_stored_client_disconnected (m : Manager) (fr : FetchResult)
    (bs : List SSEClient)
    (hurl : 1 < m.url.length)
    (hbs : (connectRun m fr).broadcasts = some bs) :
    bs.getLast? = some (finalBroadcast m.client) ∧
    finalBroadcast m.client = { m.client with connected := false } ∧
    ∀ s, s ∈ m.subscribers → (s, finalBroadcast m.client) ∈ deliveries m.subscribers bs := by
  have hguard := url_guard_false hurl
  have hmem : finalBroadcast m.client ∈ bs ∧ bs.getLast? = some (finalBroadcast m.client) := by
    unfold connectRun at hbs
    rw [if_neg hguard] at hbs
    cases fr with
    | failure msg =>
      simp only [Option.some.injEq] at hbs
      subst hbs
      exact ⟨by simp, rfl⟩
    | noBody =>
      simp only [Option.some.injEq] at hbs
      subst hbs
      exact ⟨by simp, rfl⟩
    | stream chunks =>
      simp only [Option.map_eq_some'] at hbs
      obtain ⟨ys, _, rfl⟩ := hbs
      exact ⟨by simp, by simp [List.getLast?_concat]⟩
    | streamError chunks msg =>
      simp only [Option.map_eq_some'] at hbs
      obtain ⟨ys, _, rfl⟩ := hbs
      refine ⟨by simp, ?_⟩
      rw [show ys ++ [errorBroadcast m.client msg, finalBroadcast m.client]
            = (ys ++ [errorBroadcast m.client msg]) ++ [finalBroadcast m.client] by simp]
      exact List.getLast?_concat _
  refine ⟨hmem.2, rfl, fun s hs => ?_⟩
  unfold deliveries notifySubscribers
  rw [List.mem_flatMap]
  exact ⟨finalBroadcast m.client, hmem.1, List.mem_map_of_mem _ hs⟩

/-- Witness for the amended C1: a transport failure on a two-character URL
with one subscriber ends with the final `connected: false` broadcast of the
stored (still default) client, delivered to that subscriber. -/
theorem final_broadcast_is_stored_client_disconnected_witness :
    ([errorBroadcast defaultSSEClient "boom", finalBroadcast defaultSSEClient] :
        List SSEClient).getLast? = some (finalBroadcast defaultSSEClient) ∧
    (3, finalBroadcast defaultSSEClient) ∈
      deliveries [3] [errorBroadcast defaultSSEClient "boom", finalBroadcast defaultSSEClient] :=
  have h := final_broadcast_is_stored_client_disconnected
    { mkManager "ab" with subscribers := [3] } (.failure "boom")
    [errorBroadcast defaultSSEClient "boom", finalBroadcast defaultSSEClient]
    (by decide) (by decide)
  ⟨h.1, h.2.2 3 (by decide)⟩

/-- C8: for a URL that is empty or a single character, `_connect` is a
no-op — no request is issued, the manager is unchanged and nothing is
broadcast; for any longer URL the streaming GET is issued against exactly
that URL, and when the fetch yields a stream the reader is stored and the
read loop's broadcasts (capped by the final `connected: false` one) are
produced. -/
theorem connect_url_guard (m : Manager) (fr : FetchResult) :
    (m.url.length ≤ 1 →
      connectRun m fr = { requested := none, manager := m, broadcasts := some [] }) ∧
    (1 < m.url.length →
      (connectRun m fr).requested = some m.url ∧
      ∀ chunks, fr = FetchResult.stream chunks →
        (connectRun m fr).manager = { m with reader := true } ∧
        (connectRun m fr).broadcasts =
          (readLoop m.client chunks).map (fun bs => bs ++ [finalBroadcast m.client])) := by
  constructor
  · intro hle
    unfold connectRun
    rw [if_pos (Or.inr hle)]
  · intro hgt
    have hguard := url_guard_false hgt
    constructor
    · unfold connectRun
      rw [if_neg hguard]
      cases fr <;> rfl
    · rintro chunks rfl
      unfold connectRun
      rw [if_neg hguard]
      exact ⟨rfl, rfl⟩

/-- Witness for C8: the one-character URL "a" makes `_connect` a no-op even
on a live stream, while the two-character URL "ab" issues the request. -/
theorem connect_url_guard_witness :
    connectRun (mkManager "a") (.stream ["data: 1\n"]) =
      { requested := none, manager := mkManager "a", broadcasts := some [] } ∧
    (connectRun (mkManager "ab") (.stream ["data: 1\n"])).requested = some "ab" :=
  ⟨(connect_url_guard (mkManager "a") (.stream ["data: 1\n"])).1 (by decide),
   ((connect_url_guard (mkManager "ab") (.stream ["data: 1\n"])).2 (by decide)).1⟩

/-- C4 (counterexample): before any connection was ever made no reader is
held, so `reconnect()` emits no disconnect broadcast at all — the
`_disconnect` half is a silent no-op — even though connect activity still
follows. -/
theorem reconnect_before_any_connection_no_disconnect_broadcast :
    (reconnectRun (mkManager "ab") (.stream [])).disconnectBroadcasts = [] ∧
    (reconnectRun (mkManager "ab") (.stream [])).connect.requested = some "ab" :=
  ⟨by decide, by decide⟩

/-- C4 (amended): `reconnect()` always runs `_disconnect` and then
`_connect`, but the disconnect broadcast (`connected: false`) is emitted
iff a reader is currently held; when no reader exists (in particular before
any connection was ever made) no disconnect broadcast occurs, while connect
activity is still initiated (for a URL longer than one character, the
request is issued against it). -/
theorem reconnect_disconnects_then_connects (m : Manager) (fr : FetchResult) :
    (reconnectRun m fr).disconnectBroadcasts =
      (if m.reader then [finalBroadcast m.client] else []) ∧
    (reconnectRun m fr).connect = connectRun (disconnectRun m).1 fr ∧
    (1 < m.url.length → (reconnectRun m fr).connect.requested = some m.url) := by
  refine ⟨?_, rfl, ?_⟩
  · cases hr : m.reader <;> simp [reconnectRun, disconnectRun, hr]
  · intro hgt
    have hd1 : (disconnectRun m).1.url = m.url := by
      unfold disconnectRun
      split <;> rfl
    have hd2 : ¬((disconnectRun m).1.url = "" ∨ (disconnectRun m).1.url.length ≤ 1) := by
      rw [hd1]
      exact url_guard_false hgt
    show (connectRun (disconnectRun m).1 fr).requested = some m.url
    unfold connectRun
    rw [if_neg hd2]
    cases fr <;> simp [hd1]

/-- Witness for the amended C4: with a reader held, `reconnect()` emits the
disconnect broadcast and then requests the URL again. -/
theorem reconnect_disconnects_then_connects_witness :
    (reconnectRun { mkManager "ab" with reader := true } (.failure "x")).disconnectBroadcasts =
      (if ({ mkManager "ab" with reader := true } : Manager).reader
        then [finalBroadcast ({ mkManager "ab" with reader := true } : Manager).client]
        else []) ∧
    (reconnectRun { mkManager "ab" with reader := true } (.failure "x")).connect.requested =
      some "ab" :=
  have h := reconnect_disconnects_then_connects { mkManager "ab" with reader := true } (.failure "x")
  ⟨h.1, h.2.2 (by decide)⟩

/-- C6: when the only registered subscriber unsubscribes, the set becomes
empty, the held reader is cancelled, and no broadcast — neither the
disconnect broadcast itself nor any later one — is delivered to any
subscriber, whatever the server keeps sending. -/
theorem unsubscribe_last_cancels_stream (m : Manager) (s : Nat)
    (hsubs : m.subscribers = [s]) (hreader : m.reader = true) :
    (unsubscribeRun m s).1.subscribers = [] ∧
    (unsubscribeRun m s).1.cancelled = true ∧
    deliveries (unsubscribeRun m s).1.subscribers (unsubscribeRun m s).2 = [] ∧
    ∀ bs, deliveries (unsubscribeRun m s).1.subscribers bs = [] := by
  have hfilter : m.subscribers.filter (fun t => t != s) = [] := by
    rw [hsubs]
    simp
  have hrun : unsubscribeRun m s =
      disconnectRun { m with subscribers := [] } := by
    unfold unsubscribeRun
    rw [hfilter]
    rfl
  have hdisc : disconnectRun { m with subscribers := [] } =
      ({ m with subscribers := [], cancelled := true },
        [finalBroadcast m.client]) := by
    unfold disconnectRun
    rw [if_pos]
    exact hreader
  rw [hrun, hdisc]
  exact ⟨rfl, rfl, rfl, fun bs => deliveries_nil_subs bs⟩

/-- Witness for C6 on a concrete manager holding one subscriber and a
reader. -/
theorem unsubscribe_last_cancels_stream_witness :
    (unsubscribeRun { mkManager "ab" with subscribers := [5], reader := true } 5).1.subscribers
      = [] ∧
    (unsubscribeRun { mkManager "ab" with subscribers := [5], reader := true } 5).1.cancelled
      = true ∧
    deliveries
      (unsubscribeRun { mkManager "ab" with subscribers := [5], reader := true } 5).1.subscribers
      [finalBroadcast defaultSSEClient, messageBroadcast defaultSSEClient (Json.jnum 7)] = [] :=
  have h := unsubscribe_last_cancels_stream
    { mkManager "ab" with subscribers := [5], reader := true } 5 rfl rfl
  ⟨h.1, h.2.1, h.2.2.2 [finalBroadcast defaultSSEClient,
    messageBroadcast defaultSSEClient (Json.jnum 7)]⟩

lemma disconnectRun_reader (m : Manager) : (disconnectRun m).1.reader = m.reader := by
  unfold disconnectRun
  split <;> rfl

lemma unsubscribeRun_reader (m : Manager) (t : Nat) :
    (unsubscribeRun m t).1.reader = m.reader := by
  unfold unsubscribeRun
  dsimp only
  split
  · rw [disconnectRun_reader]
  · rfl

/-- C10: once a reader is held it survives `_disconnect` and unsubscription
(the field is never reset), and a later `subscribe` only registers the new
callback — because a reader exists, no new `_connect` is attempted, and the
stored client snapshot is returned unchanged. -/
theorem reader_never_cleared_subscribe_skips_connect (m : Manager) (s t : Nat)
    (fr : FetchResult) (hreader : m.reader = true) :
    (disconnectRun m).1.reader = true ∧
    (unsubscribeRun m t).1.reader = true ∧
    subscribeRun m s fr =
      ({ m with subscribers := addSub m.subscribers s }, none, m.client) := by
  refine ⟨?_, ?_, ?_⟩
  · rw [disconnectRun_reader]
    exact hreader
  · rw [unsubscribeRun_reader]
    exact hreader
  · unfold subscribeRun
    dsimp only
    rw [if_pos]
    exact hreader

/-- Witness for C10: after a disconnect on a connected manager the reader
is still held, and a fresh subscribe triggers no connect. -/
theorem reader_never_cleared_subscribe_skips_connect_witness :
    (disconnectRun { mkManager "ab" with subscribers := [5], reader := true }).1.reader = true ∧
    subscribeRun { mkManager "ab" with subscribers := [5], reader := true } 9 (.stream []) =
      ({ mkManager "ab" with subscribers := [5, 9], reader := true }, none, defaultSSEClient) :=
  have h := reader_never_cleared_subscribe_skips_connect
    { mkManager "ab" with subscribers := [5], reader := true } 9 7 (.stream []) rfl
  ⟨h.1, by rw [h.2.2]; decide⟩

/-- C3: from an empty holder, the first `useStatefulSubscribableSSE` call
with a non-empty URL constructs the shared instance bound to that URL; a
second call returns the very same instance still bound to the first URL,
whatever URL it passes; and after `destroyStatefulSubscribableSSE` the next
call constructs a fresh (distinct) instance. -/
theorem singleton_acquire_reuses_instance (h : Holder) (urlA urlB urlC : String)
    (hempty : h.inst = none) (hA : urlA ≠ "") (hC : urlC ≠ "") :
    (useStatefulSubscribableSSE h urlA).2 = some (h.next, urlA) ∧
    (useStatefulSubscribableSSE (useStatefulSubscribableSSE h urlA).1 urlB).2 =
      some (h.next, urlA) ∧
    (useStatefulSubscribableSSE (useStatefulSubscribableSSE h urlA).1 urlB).1.inst =
      some (h.next, urlA) ∧
    (useStatefulSubscribableSSE
        (destroyStatefulSubscribableSSE
          (useStatefulSubscribableSSE (useStatefulSubscribableSSE h urlA).1 urlB).1)
        urlC).2 = some (h.next + 1, urlC) ∧
    (some (h.next + 1, urlC) : Option (Nat × String)) ≠ some (h.next, urlA) := by
  have h1 : useStatefulSubscribableSSE h urlA =
      ({ next := h.next + 1, inst := some (h.next, urlA) }, some (h.next, urlA)) := by
    unfold useStatefulSubscribableSSE
    rw [if_pos ⟨hempty, hA⟩]
  have h2 : useStatefulSubscribableSSE (useStatefulSubscribableSSE h urlA).1 urlB =
      ((useStatefulSubscribableSSE h urlA).1, some (h.next, urlA)) := by
    rw [h1]
    unfold useStatefulSubscribableSSE
    rw [if_neg]
    rintro ⟨hnone, -⟩
    exact Option.noConfusion hnone
  have h3 : destroyStatefulSubscribableSSE
      (useStatefulSubscribableSSE (useStatefulSubscribableSSE h urlA).1 urlB).1 =
      { next := h.next + 1, inst := none } := by
    rw [h2, h1]
    rfl
  have h4 : useStatefulSubscribableSSE ({ next := h.next + 1, inst := none } : Holder) urlC =
      ({ next := h.next + 2, inst := some (h.next + 1, urlC) }, some (h.next + 1, urlC)) := by
    unfold useStatefulSubscribableSSE
    rw [if_pos ⟨rfl, hC⟩]
  refine ⟨by rw [h1], by rw [h2], by rw [h2, h1], by rw [h3, h4], ?_⟩
  intro hcontra
  have := (Prod.mk.injEq _ _ _ _).mp (Option.some.inj hcontra)
  omega

/-- Witness for C3 on the module-load holder and the URLs "ab", "cd",
"ef". -/
theorem singleton_acquire_reuses_instance_witness :
    (useStatefulSubscribableSSE emptyHolder "ab").2 = some (0, "ab") ∧
    (useStatefulSubscribableSSE (useStatefulSubscribableSSE emptyHolder "ab").1 "cd").2 =
      some (0, "ab") ∧
    (useStatefulSubscribableSSE
        (destroyStatefulSubscribableSSE
          (useStatefulSubscribableSSE (useStatefulSubscribableSSE emptyHolder "ab").1 "cd").1)
        "ef").2 = some (0 + 1, "ef") :=
  have h := singleton_acquire_reuses_instance emptyHolder "ab" "cd" "ef"
    rfl (by decide) (by decide)
  ⟨h.1, h.2.1, h.2.2.2.1⟩

lemma connectRun_client (m : Manager) (fr : FetchResult) :
    (connectRun m fr).manager.client = m.client := by
  unfold connectRun
  split
  · rfl
  · cases fr <;> rfl

lemma disconnectRun_client (m : Manager) : (disconnectRun m).1.client = m.client := by
  unfold disconnectRun
  split <;> rfl

lemma subscribeRun_client (m : Manager) (s : Nat) (fr : FetchResult) :
    (subscribeRun m s fr).1.client = m.client := by
  unfold subscribeRun
  dsimp only
  split
  · rfl
  · rw [connectRun_client]

lemma subscribeRun_snapshot (m : Manager) (s : Nat) (fr : FetchResult) :
    (subscribeRun m s fr).2.2 = m.client := by
  unfold subscribeRun
  dsimp only
  split
  · rfl
  · rw [connectRun_client]

lemma unsubscribeRun_client (m : Manager) (s : Nat) :
    (unsubscribeRun m s).1.client = m.client := by
  unfold unsubscribeRun
  dsimp only
  split
  · rw [disconnectRun_client]
  · rfl

lemma applyOp_client (m : Manager) (op : Op) : (applyOp m op).client = m.client := by
  cases op with
  | sub s fr => exact subscribeRun_client m s fr
  | unsub s => exact unsubscribeRun_client m s
  | conn fr => exact connectRun_client m fr
  | disc => exact disconnectRun_client m
  | reconn fr =>
    show (connectRun (disconnectRun m).1 _).manager.client = m.client
    rw [connectRun_client, disconnectRun_client]

lemma applyOps_client (m : Manager) (ops : List Op) :
    (applyOps m ops).client = m.client := by
  induction ops generalizing m with
  | nil => rfl
  | cons op rest ih =>
    show (applyOps (applyOp m op) rest).client = m.client
    rw [ih, applyOp_client]

/-- C9: the stored client record is never mutated or replaced by any
sequence of operations — every broadcast is built as a fresh copy of the
stored record without writing back — so after any operation sequence the
stored record, the snapshot returned by `subscribe`, and the
`initial`/`current` getters all still carry `connected: false`, no
`lastMessage` and no `error`. -/
theorem client_record_never_mutated (url : String) (ops : List Op) (s : Nat)
    (fr : FetchResult) :
    (applyOps (mkManager url) ops).client = defaultSSEClient ∧
    (subscribeRun (applyOps (mkManager url) ops) s fr).2.2 = defaultSSEClient ∧
    (applyOps (mkManager url) ops).initial = defaultSSEClient ∧
    (applyOps (mkManager url) ops).current = defaultSSEClient ∧
    defaultSSEClient.connected = false ∧
    defaultSSEClient.lastMessage = none ∧
    defaultSSEClient.error = none := by
  have hc : (applyOps (mkManager url) ops).client = defaultSSEClient := applyOps_client _ ops
  refine ⟨hc, ?_, rfl, rfl, rfl, rfl, rfl⟩
  rw [subscribeRun_snapshot, hc]
